import Mathlib

/-!
Verification of the clickstream buffer analyzer (`csbufferanalizer.go`).

The Go program is shallowly embedded below: strings are `List Char`, Go's
`time.Time` is the number of Unix seconds (`GoTime`), Go map state is an
association list, the `rand.Intn` stream is an explicit injected list of
initial values, and the event-log channel send is modelled by returning the
list of entries sent.  Panics caught by the `recover` in `parseEvent` are
modelled as an explicit error branch (`ParseErr.parserPanic`), mirroring the
values the deferred handler assigns to the named return variables.
-/

namespace CSBuffer

/-- `UTC_GPS_Diff` from the source: seconds between the GPS and Unix epochs. -/
def UTC_GPS_Diff : Int := 315964800

/-- `BuffWaterMarkSize` from the source: the iGuide R31 buffer watermark. -/
def BuffWaterMarkSize : Nat := 750

/-- Go `time.Time` reduced to its Unix-seconds value. -/
structure GoTime where
  unixSec : Int
deriving DecidableEq

/-- The zero `time.Time{}` value: January 1, year 1 UTC in Unix seconds. -/
def zeroGoTime : GoTime := ⟨-62135596800⟩

/-- Go `t.After(u)`: strict comparison of the instants. -/
def goAfter (t u : GoTime) : Bool := decide (u.unixSec < t.unixSec)

/-- Value of one hexadecimal digit character, `none` for non-hex characters. -/
def hexDigitVal? (c : Char) : Option Nat :=
  if '0' ≤ c ∧ c ≤ '9' then some (c.toNat - '0'.toNat)
  else if 'a' ≤ c ∧ c ≤ 'f' then some (c.toNat - 'a'.toNat + 10)
  else if 'A' ≤ c ∧ c ≤ 'F' then some (c.toNat - 'A'.toNat + 10)
  else none

/-- Value of a non-empty all-hex-digit string, as Go `strconv.ParseInt`
reads the digit run (most significant first). -/
def hexDigitsVal? : List Char → Option Nat
  | [] => none
  | [c] => hexDigitVal? c
  | c :: rest => do
    let h ← hexDigitVal? c
    let r ← hexDigitsVal? rest
    pure (h * 16 ^ rest.length + r)

/-- Go `strconv.ParseInt(s, 16, 64)`: optional sign, then hex digits,
with the 64-bit range check. -/
def parseHexInt64? (s : List Char) : Option Int :=
  match s with
  | '+' :: rest =>
    match hexDigitsVal? rest with
    | some n => if (n : Int) ≤ 2 ^ 63 - 1 then some (n : Int) else none
    | none => none
  | '-' :: rest =>
    match hexDigitsVal? rest with
    | some n => if (n : Int) ≤ 2 ^ 63 then some (-(n : Int)) else none
    | none => none
  | _ =>
    match hexDigitsVal? s with
    | some n => if (n : Int) ≤ 2 ^ 63 - 1 then some (n : Int) else none
    | none => none

/-- `convertToTime` from the source: parse the hex field as a 64-bit integer,
add the GPS-to-Unix epoch offset; on parse failure return `time.Time{}`. -/
def convertToTime (timestampS : List Char) : GoTime :=
  match parseHexInt64? timestampS with
  | some timestamp => ⟨timestamp + UTC_GPS_Diff⟩
  | none => zeroGoTime

/-- One row of `commandsList` from the source. -/
structure Command where
  cmd : List Char
  name : String
  diagnostic : Bool
deriving DecidableEq

/-- `commandsList` from the source: the fixed clickstream code table. -/
def commandsList : List Command :=
  [ ⟨['4', '1'], "`A`Ad Display", false⟩,
    ⟨['4', '2'], "`B`Button Config", true⟩,
    ⟨['4', '3'], "`C`Channel Change (verbose)", false⟩,
    ⟨['6', '3'], "`c`Channel Change (brief)", false⟩,
    ⟨['4', '5'], "`E`Program Event", false⟩,
    ⟨['4', '6'], "`F`Favorite", false⟩,
    ⟨['4', '7'], "`G`VOD Category", false⟩,
    ⟨['4', '8'], "`H`Highlight", false⟩,
    ⟨['4', '9'], "`I`Info Screen", false⟩,
    ⟨['4', 'B'], "`K`Key Press", false⟩,
    ⟨['4', 'C'], "`L`Lock", false⟩,
    ⟨['4', 'D'], "`M`Missing", false⟩,
    ⟨['4', 'F'], "`O`Option", false⟩,
    ⟨['5', '0'], "`P`Pulse", false⟩,
    ⟨['5', '2'], "`R`Reset", false⟩,
    ⟨['5', '3'], "`S`State Change", false⟩,
    ⟨['5', '4'], "`T`Turbo Key", false⟩,
    ⟨['5', '5'], "`U`Unit Ident.", true⟩,
    ⟨['5', '6'], "`V`Video Playback Session (non- OCAP)", false⟩,
    ⟨['5', '8'], "`X`Status", true⟩,
    ⟨['5', 'A'], "`Z`Menu Config.", true⟩ ]

/-- Lookup in the `eventNames` map built by `initEventNames`. -/
def eventNameLookup (cmd : List Char) : Option String :=
  match commandsList.find? (fun c => c.cmd = cmd) with
  | some c => some c.name
  | none => none

/-- `convertToLogName` from the source: map a 2-hex-char code to its
category name, failing on unknown codes. -/
def convertToLogName (cmd : List Char) : Except String String :=
  match eventNameLookup cmd with
  | some cmdStr => Except.ok cmdStr
  | none => Except.error "Unknown Clickstream Code"

/-- `isDiagnosticEvent` from the source: membership of the category name in
the `diagnosticEvents` map built by `initEventNames`. -/
def isDiagnosticEvent (cmd : String) : Bool :=
  commandsList.any (fun c => c.diagnostic && c.name = cmd)

/-- `hex.DecodeString`: decode an even-length hex string to its bytes. -/
def hexDecodeBytes? : List Char → Option (List Nat)
  | [] => some []
  | [_] => none
  | c1 :: c2 :: rest => do
    let h ← hexDigitVal? c1
    let l ← hexDigitVal? c2
    let bs ← hexDecodeBytes? rest
    pure ((16 * h + l) :: bs)

/-- `convertToString` from the source: hex-decode to bytes and view them as
a string; the empty string on any decode error. -/
def convertToString (str : List Char) : String :=
  match hexDecodeBytes? str with
  | some bs => String.mk (bs.map Char.ofNat)
  | none => ""

/-- Go string slicing `s[a:b]`: defined when `a ≤ b ≤ len`, a panic
(`none`) otherwise. -/
def goSlice (l : List Char) (a b : Nat) : Option (List Char) :=
  if a ≤ b ∧ b ≤ l.length then some ((l.drop a).take (b - a)) else none

/-- Go `strings.Split(line, " ")`. -/
def splitSpace : List Char → List (List Char)
  | [] => [[]]
  | c :: rest =>
    let r := splitSpace rest
    if c = ' ' then [] :: r
    else
      match r with
      | [] => [[c]]
      | t :: ts => (c :: t) :: ts

/-- The `EventLogEntry` struct from the source. -/
structure EventLogEntry where
  timestamp : GoTime
  received : List Char
  deviceId : List Char
  eventcode : String
  mso : String
deriving DecidableEq

/-- The zero value `EventLogEntry{}`. -/
def zeroEventLogEntry : EventLogEntry := ⟨zeroGoTime, [], [], "", ""⟩

/-- `checkAndLogForVodActivity` from the source.  The result is `none` when
the fixed-offset slice panics (payload too short), mirroring Go; otherwise
`some (emit?, entry)` exactly as the Go function returns. -/
def checkAndLogForVodActivity (eventCode : String) (timestamp : GoTime)
    (received deviceId clickString : List Char) (mso : String) :
    Option (Bool × EventLogEntry) :=
  if eventCode = "`G`VOD Category" then
    some (true, ⟨timestamp, received, deviceId, eventCode, mso⟩)
  else if eventCode = "`I`Info Screen" then
    match goSlice clickString 10 12 with
    | none => none
    | some s =>
      if convertToString s = "V" then
        some (true, ⟨timestamp, received, deviceId, eventCode ++ " / Type V", mso⟩)
      else
        some (false, zeroEventLogEntry)
  else if eventCode = "`V`Video Playback Session (non- OCAP)" then
    match goSlice clickString 26 28 with
    | none => none
    | some s =>
      if convertToString s = "V" then
        some (true, ⟨timestamp, received, deviceId, eventCode ++ " / Source V", mso⟩)
      else
        some (false, zeroEventLogEntry)
  else
    some (false, zeroEventLogEntry)

/-- The four ways a line can fail to decode in `parseEvent`:
wrong token count, unknown clickstream code, a future timestamp, and the
recovered slicing panic. -/
inductive ParseErr where
  | wrongLineFormat
  | unknownCode
  | wrongDate
  | parserPanic
deriving DecidableEq

/-- The named return values of `parseEvent`. -/
structure ParseOut where
  timestamp : GoTime
  deviceId : List Char
  eventSize : Nat
  eventCode : String
  err : Option ParseErr
deriving DecidableEq

/-- The run-configuration flags that `parseEvent` and the main loop read. -/
structure Config where
  supress : Bool
  vodLogOn : Bool
  eventSequenceLogOnly : Bool

/-- The placeholder `received` value used for 2-token lines. -/
def defaultReceived : List Char := "1900-01-01 00:00:00".toList

/-- The body of `parseEvent` after tokenization: slices the code and
timestamp fields, computes the size, flags future timestamps, and performs
the VOD / full-sequence channel sends (returned as a list). -/
def parseTokens (cfg : Config) (now : GoTime)
    (received deviceId clickString : List Char) (mso : String) :
    ParseOut × List EventLogEntry :=
  match goSlice clickString 0 2 with
  | none =>
    (⟨now, deviceId, 0, "", some ParseErr.parserPanic⟩, [])
  | some code =>
    match convertToLogName code with
    | Except.error _ =>
      (⟨zeroGoTime, deviceId, 0, "", some ParseErr.unknownCode⟩, [])
    | Except.ok name =>
      match goSlice clickString 2 10 with
      | none =>
        (⟨now, deviceId, 0, name, some ParseErr.parserPanic⟩, [])
      | some tsField =>
        let timestamp := convertToTime tsField
        let eventSize := clickString.length / 2
        let err0 : Option ParseErr :=
          if goAfter timestamp now then some ParseErr.wrongDate else none
        if cfg.vodLogOn then
          match checkAndLogForVodActivity name timestamp received deviceId clickString mso with
          | none =>
            (⟨now, deviceId, eventSize, name, some ParseErr.parserPanic⟩, [])
          | some (true, logEntry) =>
            (⟨timestamp, deviceId, eventSize, name, err0⟩, [logEntry])
          | some (false, _) =>
            (⟨timestamp, deviceId, eventSize, name, err0⟩, [])
        else if cfg.eventSequenceLogOnly then
          (⟨timestamp, deviceId, eventSize, name, err0⟩,
           [⟨timestamp, received, deviceId, name, mso⟩])
        else
          (⟨timestamp, deviceId, eventSize, name, err0⟩, [])

/-- `parseEvent` from the source: tokenize on the space delimiter and
dispatch on the token count. -/
def parseEvent (cfg : Config) (now : GoTime) (line : List Char) (mso : String) :
    ParseOut × List EventLogEntry :=
  match splitSpace line with
  | [t0, t1] => parseTokens cfg now defaultReceived t0 t1 mso
  | [t0, t1, t2] => parseTokens cfg now t0 t1 t2 mso
  | _ => (⟨now, [], 0, "", some ParseErr.wrongLineFormat⟩, [])

/-- The `Package` struct from the source: one simulated buffer flush. -/
structure Package where
  timestamp : GoTime
  deviceId : List Char
  eventCode : String
deriving DecidableEq

/-- The successfully decoded fields the main loop feeds to the buffer
simulation. -/
structure EventOk where
  timestamp : GoTime
  deviceId : List Char
  eventSize : Nat
  eventCode : String
deriving DecidableEq

/-- Lookup in the `bufferSize` map (modelled as an association list). -/
def lookupDev : List (List Char × Nat) → List Char → Option Nat
  | [], _ => none
  | (k, v) :: rest, d => if k = d then some v else lookupDev rest d

/-- Map update/insert for the `bufferSize` map. -/
def mapSet : List (List Char × Nat) → List Char → Nat → List (List Char × Nat)
  | [], k, v => [(k, v)]
  | (k2, v2) :: rest, k, v =>
    if k2 = k then (k, v) :: rest else (k2, v2) :: mapSet rest k v

/-- The state the main loop threads through the buffer simulation: the
per-device `bufferSize` map, the stream of `rand.Intn(BuffWaterMarkSize)`
values still to be drawn (injected to make the randomness explicit), and
the collected packages. -/
structure SimState where
  bufferSize : List (List Char × Nat)
  inits : List Nat
  packages : List Package
deriving DecidableEq

/-- One iteration of the buffer simulation in `main` for a successfully
decoded event: lazy randomized initialization of the device entry, the
diagnostic-suppression check, then the watermark test that either emits a
package and reseeds the buffer with the triggering event's size or just
accumulates the size. -/
def bufferObserve (supressF : Bool) (st : SimState) (ev : EventOk) : SimState :=
  let initStep :=
    match lookupDev st.bufferSize ev.deviceId with
    | some _ => (st.bufferSize, st.inits)
    | none => (mapSet st.bufferSize ev.deviceId (st.inits.headD 0), st.inits.tail)
  let buf := initStep.1
  let inits := initStep.2
  if supressF && isDiagnosticEvent ev.eventCode then
    { bufferSize := buf, inits := inits, packages := st.packages }
  else
    let b := (lookupDev buf ev.deviceId).getD 0
    if b + ev.eventSize > BuffWaterMarkSize then
      { bufferSize := mapSet buf ev.deviceId ev.eventSize, inits := inits,
        packages := st.packages ++ [⟨ev.timestamp, ev.deviceId, ev.eventCode⟩] }
    else
      { bufferSize := mapSet buf ev.deviceId (b + ev.eventSize), inits := inits,
        packages := st.packages }

/-- The main loop's buffer simulation over a list of decoded events. -/
def mainRun (supressF : Bool) (st : SimState) (evs : List EventOk) : SimState :=
  evs.foldl (bufferObserve supressF) st

/-- The `ErrorLogEntry` struct from the source. -/
structure ErrorLogEntry where
  fileName : String
  lineNo : Nat
  line : List Char
  err : ParseErr
deriving DecidableEq

/-- The whole run-wide mutable state of `main`: the simulation state, the
`errorsLog` list, and the list the event-log channel consumer appends to. -/
structure FullState where
  sim : SimState
  errorsLog : List ErrorLogEntry
  vodLog : List EventLogEntry
deriving DecidableEq

/-- One iteration of the per-line loop in `main`: parse the line (the
channel sends are appended to `vodLog` by the consumer goroutine), then
either record the decode error or run the buffer simulation step. -/
def processLine (cfg : Config) (now : GoTime) (fileName : String) (lineNo : Nat)
    (mso : String) (st : FullState) (line : List Char) : FullState :=
  let pr := parseEvent cfg now line mso
  let res := pr.1
  let st1 : FullState := { st with vodLog := st.vodLog ++ pr.2 }
  match res.err with
  | some e =>
    { st1 with errorsLog := st1.errorsLog ++ [⟨fileName, lineNo, line, e⟩] }
  | none =>
    { st1 with
      sim := bufferObserve cfg.supress st1.sim
        ⟨res.timestamp, res.deviceId, res.eventSize, res.eventCode⟩ }

/-- Modelled from the spec's recurrence for claim C1: with accumulated
value `b0`, the events whose package is emitted — a package is emitted at
an event exactly when `b0 + size > 750`, and emission reseeds the
accumulator with the triggering size, otherwise the size is added. -/
def specEmitted (b0 : Nat) : List EventOk → List Package
  | [] => []
  | ev :: rest =>
    if b0 + ev.eventSize > 750 then
      ⟨ev.timestamp, ev.deviceId, ev.eventCode⟩ :: specEmitted ev.eventSize rest
    else
      specEmitted (b0 + ev.eventSize) rest

/-- Modelled from the spec's recurrence for claim C1: the accumulated
value after a sequence of event sizes. -/
def specAcc (b0 : Nat) : List Nat → Nat
  | [] => b0
  | s :: rest => if b0 + s > 750 then specAcc s rest else specAcc (b0 + s) rest

/-- The `TimepointType` struct from the source: one per-second bucket. -/
structure TimepointType where
  timestamp : GoTime
  numberOfEvents : Nat
deriving DecidableEq

/-- The ordering `TimepointTypeList` is sorted by (`Less` is
`timestamp.Before`); buckets compare by their instant. -/
def tpLE (a b : TimepointType) : Prop :=
  a.timestamp.unixSec ≤ b.timestamp.unixSec

instance : DecidableRel tpLE := fun a b =>
  inferInstanceAs (Decidable (a.timestamp.unixSec ≤ b.timestamp.unixSec))

instance : IsTotal TimepointType tpLE :=
  ⟨fun a b => Int.le_total a.timestamp.unixSec b.timestamp.unixSec⟩

instance : IsTrans TimepointType tpLE :=
  ⟨fun _ _ _ hab hbc => le_trans hab hbc⟩

/-- The `sort.Sort(orderedEventsPerSecond)` call: sort buckets by
timestamp. -/
def sortTP (l : List TimepointType) : List TimepointType :=
  List.insertionSort tpLE l

/-- The calendar date of an instant, as a day number (the `Date()` triple
of Go, collapsed to a single integer: equal day numbers iff equal dates). -/
def dayOf (t : GoTime) : Int := t.unixSec / 86400

/-- `validateFileDate` from the source: does the timestamp still fall on
the date of the currently open output file? -/
def validateFileDate (currentDay : Int) (timestamp : GoTime) : Bool :=
  decide (dayOf timestamp = currentDay)

/-- The body of the file-rotation loop in `printEventsPerSecond`: `d` is
the date of the currently open file and `cur` the rows already written to
it (in reverse); on a date change the file is closed and a new one opened. -/
def rotateAux (d : Int) (cur : List TimepointType) :
    List TimepointType → List (Int × List TimepointType)
  | [] => [(d, cur.reverse)]
  | tp :: rest =>
    if validateFileDate d tp.timestamp then rotateAux d (tp :: cur) rest
    else (d, cur.reverse) :: rotateAux (dayOf tp.timestamp) [tp] rest

/-- The date-suffixed files written by the rotation loop in
`printEventsPerSecond`, as (date, rows) pairs in the order they are
created. -/
def rotateFiles : List TimepointType → List (Int × List TimepointType)
  | [] => []
  | tp :: rest => rotateAux (dayOf tp.timestamp) [tp] rest

section Helpers

lemma goSlice_eq_some {l : List Char} {a b : Nat} (hab : a ≤ b) (hb : b ≤ l.length) :
    goSlice l a b = some ((l.drop a).take (b - a)) := by
  unfold goSlice
  rw [if_pos ⟨hab, hb⟩]

lemma goSlice_eq_none {l : List Char} {a b : Nat} (hb : l.length < b) :
    goSlice l a b = none := by
  unfold goSlice
  rw [if_neg]
  intro h
  omega

lemma parseEvent_two {line t0 t1 : List Char} {cfg : Config} {now : GoTime} {mso : String}
    (h : splitSpace line = [t0, t1]) :
    parseEvent cfg now line mso = parseTokens cfg now defaultReceived t0 t1 mso := by
  unfold parseEvent
  rw [h]

lemma parseEvent_three {line t0 t1 t2 : List Char} {cfg : Config} {now : GoTime} {mso : String}
    (h : splitSpace line = [t0, t1, t2]) :
    parseEvent cfg now line mso = parseTokens cfg now t0 t1 t2 mso := by
  unfold parseEvent
  rw [h]

end Helpers

section Claim3

/-- C3: decoding the hex field `"00000000"` yields Unix time 315964800 (the
GPS epoch), and for valid 8-hex-digit fields the decoded timestamp is
monotonically non-decreasing in the integer value of the field. -/
theorem claim3_timestamp_conversion :
    convertToTime "00000000".toList = ⟨315964800⟩ ∧
    ∀ (s1 s2 : List Char) (v1 v2 : Int),
      s1.length = 8 → s2.length = 8 →
      parseHexInt64? s1 = some v1 → parseHexInt64? s2 = some v2 →
      v1 ≤ v2 →
      (convertToTime s1).unixSec ≤ (convertToTime s2).unixSec := by
  refine ⟨by decide, ?_⟩
  intro s1 s2 v1 v2 _ _ h1 h2 hle
  unfold convertToTime
  rw [h1, h2]
  simpa [UTC_GPS_Diff] using hle

/-- Witness for C3 at the concrete fields `"00000001"` and `"00000002"`. -/
theorem claim3_timestamp_conversion_witness :
    "00000001".toList.length = 8 ∧ "00000002".toList.length = 8 ∧
    parseHexInt64? "00000001".toList = some 1 ∧
    parseHexInt64? "00000002".toList = some 2 ∧
    (1 : Int) ≤ 2 ∧
    (convertToTime "00000001".toList).unixSec ≤ (convertToTime "00000002".toList).unixSec :=
  ⟨by decide, by decide, by decide, by decide, by decide,
    claim3_timestamp_conversion.2 _ _ 1 2 (by decide) (by decide) (by decide)
      (by decide) (by decide)⟩

end Claim3

section Claim2

/-- C2: VOD classification is a fixed function of category and payload:
`VODCategory` is always VOD activity; `InfoScreen` is VOD activity iff
payload chars 10–12 hex-decode to `"V"` (tag " / Type V");
`VideoPlaybackSession` is VOD activity iff payload chars 26–28 hex-decode
to `"V"` (tag " / Source V"); every other category is never VOD activity. -/
theorem claim2_vod_classification (ts : GoTime)
    (received deviceId clickString : List Char) (mso : String) :
    (checkAndLogForVodActivity "`G`VOD Category" ts received deviceId clickString mso =
      some (true, ⟨ts, received, deviceId, "`G`VOD Category", mso⟩)) ∧
    (12 ≤ clickString.length →
      checkAndLogForVodActivity "`I`Info Screen" ts received deviceId clickString mso =
        if convertToString ((clickString.drop 10).take 2) = "V" then
          some (true, ⟨ts, received, deviceId, "`I`Info Screen / Type V", mso⟩)
        else some (false, zeroEventLogEntry)) ∧
    (28 ≤ clickString.length →
      checkAndLogForVodActivity "`V`Video Playback Session (non- OCAP)" ts received deviceId
          clickString mso =
        if convertToString ((clickString.drop 26).take 2) = "V" then
          some (true,
            ⟨ts, received, deviceId, "`V`Video Playback Session (non- OCAP) / Source V", mso⟩)
        else some (false, zeroEventLogEntry)) ∧
    (∀ code : String, code ≠ "`G`VOD Category" → code ≠ "`I`Info Screen" →
      code ≠ "`V`Video Playback Session (non- OCAP)" →
      checkAndLogForVodActivity code ts received deviceId clickString mso =
        some (false, zeroEventLogEntry)) := by
  refine ⟨by simp [checkAndLogForVodActivity], ?_, ?_, ?_⟩
  · intro hlen
    have hs : goSlice clickString 10 12 = some ((clickString.drop 10).take 2) :=
      goSlice_eq_some (by omega) hlen
    simp only [checkAndLogForVodActivity, hs]
    simp
  · intro hlen
    have hs : goSlice clickString 26 28 = some ((clickString.drop 26).take 2) :=
      goSlice_eq_some (by omega) hlen
    simp only [checkAndLogForVodActivity, hs]
    simp
  · intro code h1 h2 h3
    simp only [checkAndLogForVodActivity]
    rw [if_neg h1, if_neg h2, if_neg h3]

/-- Witness for C2: a concrete `InfoScreen` payload whose chars 10–12 are
`"56"` (hex for ASCII `V`) is classified as VOD activity with the
" / Type V" tag, and a concrete `Pulse` event is not VOD activity. -/
theorem claim2_vod_classification_witness :
    12 ≤ "49000000015656565656565656AA".toList.length ∧
    checkAndLogForVodActivity "`I`Info Screen" ⟨5⟩ [] ['D']
        "49000000015656565656565656AA".toList "m" =
      some (true, ⟨⟨5⟩, [], ['D'], "`I`Info Screen / Type V", "m"⟩) ∧
    checkAndLogForVodActivity "`P`Pulse" ⟨5⟩ [] ['D']
        "49000000015656565656565656AA".toList "m" =
      some (false, zeroEventLogEntry) := by
  have h := claim2_vod_classification ⟨5⟩ [] ['D'] "49000000015656565656565656AA".toList "m"
  refine ⟨by decide, ?_, ?_⟩
  · rw [h.2.1 (by decide)]
    decide
  · exact h.2.2.2 "`P`Pulse" (by decide) (by decide) (by decide)

end Claim2

section ParserLemmas

lemma parseTokens_shortCode {cs : List Char} {cfg : Config} {now : GoTime}
    {r d : List Char} {mso : String} (h : cs.length < 2) :
    parseTokens cfg now r d cs mso =
      (⟨now, d, 0, "", some ParseErr.parserPanic⟩, []) := by
  unfold parseTokens
  rw [goSlice_eq_none h]

lemma convertToLogName_of_lookup_none {c : List Char} (h : eventNameLookup c = none) :
    convertToLogName c = Except.error "Unknown Clickstream Code" := by
  unfold convertToLogName
  rw [h]

lemma convertToLogName_of_lookup_some {c : List Char} {name : String}
    (h : eventNameLookup c = some name) :
    convertToLogName c = Except.ok name := by
  unfold convertToLogName
  rw [h]

lemma parseTokens_unknown {cs : List Char} {cfg : Config} {now : GoTime}
    {r d : List Char} {mso : String} (h2 : 2 ≤ cs.length)
    (hl : eventNameLookup (cs.take 2) = none) :
    parseTokens cfg now r d cs mso =
      (⟨zeroGoTime, d, 0, "", some ParseErr.unknownCode⟩, []) := by
  unfold parseTokens
  rw [goSlice_eq_some (by omega) h2]
  simp only [List.drop_zero, Nat.sub_zero, convertToLogName_of_lookup_none hl]

lemma parseTokens_shortTs {cs : List Char} {cfg : Config} {now : GoTime}
    {r d : List Char} {mso name : String} (h2 : 2 ≤ cs.length) (h10 : cs.length < 10)
    (hl : eventNameLookup (cs.take 2) = some name) :
    parseTokens cfg now r d cs mso =
      (⟨now, d, 0, name, some ParseErr.parserPanic⟩, []) := by
  unfold parseTokens
  rw [goSlice_eq_some (by omega) h2]
  simp only [List.drop_zero, Nat.sub_zero, convertToLogName_of_lookup_some hl]
  rw [goSlice_eq_none h10]

lemma parseTokens_decoded {cs : List Char} {cfg : Config} {now : GoTime}
    {r d : List Char} {mso name : String} (h10 : 10 ≤ cs.length)
    (hl : eventNameLookup (cs.take 2) = some name) :
    parseTokens cfg now r d cs mso =
      (if cfg.vodLogOn then
        match checkAndLogForVodActivity name (convertToTime ((cs.drop 2).take 8)) r d cs mso with
        | none =>
          (⟨now, d, cs.length / 2, name, some ParseErr.parserPanic⟩, [])
        | some (true, logEntry) =>
          (⟨convertToTime ((cs.drop 2).take 8), d, cs.length / 2, name,
            if goAfter (convertToTime ((cs.drop 2).take 8)) now then some ParseErr.wrongDate
            else none⟩, [logEntry])
        | some (false, _) =>
          (⟨convertToTime ((cs.drop 2).take 8), d, cs.length / 2, name,
            if goAfter (convertToTime ((cs.drop 2).take 8)) now then some ParseErr.wrongDate
            else none⟩, [])
      else if cfg.eventSequenceLogOnly then
        (⟨convertToTime ((cs.drop 2).take 8), d, cs.length / 2, name,
          if goAfter (convertToTime ((cs.drop 2).take 8)) now then some ParseErr.wrongDate
          else none⟩, [⟨convertToTime ((cs.drop 2).take 8), r, d, name, mso⟩])
      else
        (⟨convertToTime ((cs.drop 2).take 8), d, cs.length / 2, name,
          if goAfter (convertToTime ((cs.drop 2).take 8)) now then some ParseErr.wrongDate
          else none⟩, [])) := by
  unfold parseTokens
  rw [goSlice_eq_some (by omega) (by omega : 2 ≤ cs.length)]
  simp only [List.drop_zero, Nat.sub_zero, convertToLogName_of_lookup_some hl]
  rw [goSlice_eq_some (by omega) h10]

lemma parseTokens_deviceId {cs : List Char} {cfg : Config} {now : GoTime}
    {r d : List Char} {mso : String} :
    (parseTokens cfg now r d cs mso).1.deviceId = d := by
  unfold parseTokens
  repeat' split
  all_goals try rfl
  all_goals simp only []
  all_goals repeat' split
  all_goals rfl

lemma parseEvent_other {line : List Char} {cfg : Config} {now : GoTime} {mso : String}
    (h2 : (splitSpace line).length ≠ 2) (h3 : (splitSpace line).length ≠ 3) :
    parseEvent cfg now line mso =
      (⟨now, [], 0, "", some ParseErr.wrongLineFormat⟩, []) := by
  unfold parseEvent
  generalize hts : splitSpace line = ts at h2 h3 ⊢
  rcases ts with _ | ⟨a, _ | ⟨b, _ | ⟨c, _ | ⟨e, rest⟩⟩⟩⟩
  · rfl
  · rfl
  · exact absurd rfl h2
  · exact absurd rfl h3
  · rfl

lemma processLine_error {cfg : Config} {now : GoTime} {line : List Char} {mso : String}
    {po : ParseOut} {fileName : String} {lineNo : Nat} {st : FullState} {e : ParseErr}
    (hp : parseEvent cfg now line mso = (po, []))
    (he : po.err = some e) :
    processLine cfg now fileName lineNo mso st line =
      { st with errorsLog := st.errorsLog ++ [⟨fileName, lineNo, line, e⟩] } := by
  unfold processLine
  simp only [hp, he, List.append_nil]

end ParserLemmas

section Claim7

/-- C7: tokenizing on the single-space delimiter decides the decoder's
input roles: 2 tokens → `{deviceId, payload}` with the default received
placeholder; 3 tokens → `{received, deviceId, payload}`; any other token
count → `MalformedLine` (wrong line format) and no event (no log entry). -/
theorem claim7_tokenization (line : List Char) (cfg : Config) (now : GoTime) (mso : String) :
    ((splitSpace line).length = 2 →
      parseEvent cfg now line mso =
        parseTokens cfg now defaultReceived ((splitSpace line).getD 0 [])
          ((splitSpace line).getD 1 []) mso ∧
      (parseEvent cfg now line mso).1.deviceId = (splitSpace line).getD 0 []) ∧
    ((splitSpace line).length = 3 →
      parseEvent cfg now line mso =
        parseTokens cfg now ((splitSpace line).getD 0 []) ((splitSpace line).getD 1 [])
          ((splitSpace line).getD 2 []) mso ∧
      (parseEvent cfg now line mso).1.deviceId = (splitSpace line).getD 1 []) ∧
    ((splitSpace line).length ≠ 2 → (splitSpace line).length ≠ 3 →
      (parseEvent cfg now line mso).1.err = some ParseErr.wrongLineFormat ∧
      (parseEvent cfg now line mso).2 = []) := by
  refine ⟨?_, ?_, ?_⟩
  · intro h2
    obtain ⟨a, b, hab⟩ := List.length_eq_two.mp h2
    rw [hab]
    simp only [List.getD_cons_zero, List.getD_cons_succ]
    rw [parseEvent_two hab]
    exact ⟨rfl, parseTokens_deviceId⟩
  · intro h3
    obtain ⟨a, b, c, habc⟩ := List.length_eq_three.mp h3
    rw [habc]
    simp only [List.getD_cons_zero, List.getD_cons_succ]
    rw [parseEvent_three habc]
    exact ⟨rfl, parseTokens_deviceId⟩
  · intro h2 h3
    rw [parseEvent_other h2 h3]
    exact ⟨rfl, rfl⟩

/-- Witness for C7 at a 2-token line, a 3-token line and a 4-token line. -/
theorem claim7_tokenization_witness :
    ((splitSpace "DEV1 4700000001AA".toList).length = 2 ∧
      (parseEvent ⟨false, false, false⟩ ⟨10 ^ 9⟩ "DEV1 4700000001AA".toList "m").1.deviceId =
        "DEV1".toList) ∧
    ((splitSpace "2016-01-01 DEV1 4700000001AA".toList).length = 3 ∧
      (parseEvent ⟨false, false, false⟩ ⟨10 ^ 9⟩
          "2016-01-01 DEV1 4700000001AA".toList "m").1.deviceId = "DEV1".toList) ∧
    ((parseEvent ⟨false, false, false⟩ ⟨10 ^ 9⟩ "a b c d".toList "m").1.err =
      some ParseErr.wrongLineFormat) := by
  have h1 := claim7_tokenization "DEV1 4700000001AA".toList ⟨false, false, false⟩ ⟨10 ^ 9⟩ "m"
  have h2 := claim7_tokenization "2016-01-01 DEV1 4700000001AA".toList
    ⟨false, false, false⟩ ⟨10 ^ 9⟩ "m"
  have h3 := claim7_tokenization "a b c d".toList ⟨false, false, false⟩ ⟨10 ^ 9⟩ "m"
  refine ⟨⟨by decide, ?_⟩, ⟨by decide, ?_⟩, (h3.2.2 (by decide) (by decide)).1⟩
  · rw [(h1.1 (by decide)).2]
    decide
  · rw [(h2.2.1 (by decide)).2]
    decide

end Claim7

section Claim8

/-- C8: a payload whose first 2 hex chars are not in the category table
fails with `UnknownEventCode`: the decode stops before timestamp or size
are computed (they are returned as their zero values), no log entry is
sent, and the line contributes nothing to buffer state or packages — only
the error log grows. -/
theorem claim8_unknown_code (cfg : Config) (now : GoTime) (fileName : String)
    (lineNo : Nat) (mso : String) (st : FullState) (line r d cs : List Char)
    (htok : splitSpace line = [d, cs] ∨ splitSpace line = [r, d, cs])
    (h2 : 2 ≤ cs.length)
    (hl : eventNameLookup (cs.take 2) = none) :
    parseEvent cfg now line mso =
      (⟨zeroGoTime, d, 0, "", some ParseErr.unknownCode⟩, []) ∧
    processLine cfg now fileName lineNo mso st line =
      { st with errorsLog := st.errorsLog ++ [⟨fileName, lineNo, line, ParseErr.unknownCode⟩] } := by
  have hp : parseEvent cfg now line mso =
      (⟨zeroGoTime, d, 0, "", some ParseErr.unknownCode⟩, []) := by
    rcases htok with h | h
    · rw [parseEvent_two h]
      exact parseTokens_unknown h2 hl
    · rw [parseEvent_three h]
      exact parseTokens_unknown h2 hl
  exact ⟨hp, processLine_error hp rfl⟩

/-- Witness for C8 at a line whose payload starts with the unknown code
`"99"`. -/
theorem claim8_unknown_code_witness :
    (splitSpace "DEV1 9900000001AA".toList = ["DEV1".toList, "9900000001AA".toList] ∨
      splitSpace "DEV1 9900000001AA".toList =
        [[], "DEV1".toList, "9900000001AA".toList]) ∧
    2 ≤ "9900000001AA".toList.length ∧
    eventNameLookup ("9900000001AA".toList.take 2) = none ∧
    (parseEvent ⟨false, false, false⟩ ⟨10 ^ 9⟩ "DEV1 9900000001AA".toList "m").1.err =
      some ParseErr.unknownCode := by
  have h := claim8_unknown_code ⟨false, false, false⟩ ⟨10 ^ 9⟩ "f" 1 "m"
    ⟨⟨[], [], []⟩, [], []⟩ "DEV1 9900000001AA".toList [] "DEV1".toList
    "9900000001AA".toList (Or.inl (by decide)) (by decide) (by decide)
  refine ⟨Or.inl (by decide), by decide, by decide, ?_⟩
  rw [h.1]

end Claim8

section Claim4

/-- C4: the decoder is total (it is a Lean function) and never
process-fatal: on a 2- or 3-token line whose payload is shorter than 10
hex chars — so any of the fixed-offset slices would be out of range — the
recovered panic or the code lookup turns the line into a per-line decode
error that is appended to the error log and skipped, leaving the buffer
state, the packages and the side-channel log unchanged. -/
theorem claim4_short_payload_recovered (cfg : Config) (now : GoTime) (fileName : String)
    (lineNo : Nat) (mso : String) (st : FullState) (line r d cs : List Char)
    (htok : splitSpace line = [d, cs] ∨ splitSpace line = [r, d, cs])
    (hshort : cs.length < 10) :
    ∃ e : ParseErr,
      (parseEvent cfg now line mso).1.err = some e ∧
      (parseEvent cfg now line mso).2 = [] ∧
      processLine cfg now fileName lineNo mso st line =
        { st with errorsLog := st.errorsLog ++ [⟨fileName, lineNo, line, e⟩] } := by
  by_cases h2 : 2 ≤ cs.length
  · cases hl : eventNameLookup (cs.take 2) with
    | none =>
      have hp : parseEvent cfg now line mso =
          (⟨zeroGoTime, d, 0, "", some ParseErr.unknownCode⟩, []) := by
        rcases htok with h | h
        · rw [parseEvent_two h]
          exact parseTokens_unknown h2 hl
        · rw [parseEvent_three h]
          exact parseTokens_unknown h2 hl
      exact ⟨ParseErr.unknownCode, by rw [hp], by rw [hp], processLine_error hp rfl⟩
    | some name =>
      have hp : parseEvent cfg now line mso =
          (⟨now, d, 0, name, some ParseErr.parserPanic⟩, []) := by
        rcases htok with h | h
        · rw [parseEvent_two h]
          exact parseTokens_shortTs h2 hshort hl
        · rw [parseEvent_three h]
          exact parseTokens_shortTs h2 hshort hl
      exact ⟨ParseErr.parserPanic, by rw [hp], by rw [hp], processLine_error hp rfl⟩
  · have hp : parseEvent cfg now line mso =
        (⟨now, d, 0, "", some ParseErr.parserPanic⟩, []) := by
      rcases htok with h | h
      · rw [parseEvent_two h]
        exact parseTokens_shortCode (by omega)
      · rw [parseEvent_three h]
        exact parseTokens_shortCode (by omega)
    exact ⟨ParseErr.parserPanic, by rw [hp], by rw [hp], processLine_error hp rfl⟩

/-- Witness for C4 at the 8-hex-char payload `"49000000"` (a known code
with a truncated timestamp field). -/
theorem claim4_short_payload_recovered_witness :
    (splitSpace "DEV1 49000000".toList = ["DEV1".toList, "49000000".toList] ∨
      splitSpace "DEV1 49000000".toList = [[], "DEV1".toList, "49000000".toList]) ∧
    "49000000".toList.length < 10 ∧
    (∃ e : ParseErr,
      (parseEvent ⟨false, false, false⟩ ⟨10 ^ 9⟩ "DEV1 49000000".toList "m").1.err = some e ∧
      (parseEvent ⟨false, false, false⟩ ⟨10 ^ 9⟩ "DEV1 49000000".toList "m").2 = [] ∧
      processLine ⟨false, false, false⟩ ⟨10 ^ 9⟩ "f" 1 "m" ⟨⟨[], [], []⟩, [], []⟩
          "DEV1 49000000".toList =
        { sim := ⟨[], [], []⟩, errorsLog := [⟨"f", 1, "DEV1 49000000".toList, e⟩],
          vodLog := [] }) :=
  ⟨Or.inl (by decide), by decide,
    claim4_short_payload_recovered ⟨false, false, false⟩ ⟨10 ^ 9⟩ "f" 1 "m"
      ⟨⟨[], [], []⟩, [], []⟩ "DEV1 49000000".toList [] "DEV1".toList "49000000".toList
      (Or.inl (by decide)) (by decide)⟩

end Claim4

section Claim9

/-- C9: when the 8-hex-char timestamp field fails to parse as a 64-bit hex
integer, the decoder produces the zero timestamp value and does not fail:
the event is returned with `err = none` (so the line is not recorded in
the error log) rather than being treated as a decode failure. -/
theorem claim9_bad_timestamp_is_not_an_error (sup seq : Bool) (now : GoTime)
    (fileName : String) (lineNo : Nat) (mso : String) (st : FullState)
    (line r d cs : List Char) (name : String)
    (htok : splitSpace line = [d, cs] ∨ splitSpace line = [r, d, cs])
    (h10 : 10 ≤ cs.length)
    (hl : eventNameLookup (cs.take 2) = some name)
    (hts : parseHexInt64? ((cs.drop 2).take 8) = none)
    (hnow : zeroGoTime.unixSec ≤ now.unixSec) :
    (parseEvent ⟨sup, false, seq⟩ now line mso).1.err = none ∧
    (parseEvent ⟨sup, false, seq⟩ now line mso).1.timestamp = zeroGoTime ∧
    (processLine ⟨sup, false, seq⟩ now fileName lineNo mso st line).errorsLog =
      st.errorsLog := by
  have hzero : convertToTime ((cs.drop 2).take 8) = zeroGoTime := by
    unfold convertToTime
    rw [hts]
  have hfut : goAfter zeroGoTime now = false := by
    unfold goAfter
    exact decide_eq_false (not_lt.mpr hnow)
  have hpt : ∀ rcv : List Char, parseTokens (⟨sup, false, seq⟩ : Config) now rcv d cs mso =
      (⟨zeroGoTime, d, cs.length / 2, name, none⟩,
        if seq then [⟨zeroGoTime, rcv, d, name, mso⟩] else []) := by
    intro rcv
    rw [parseTokens_decoded h10 hl]
    simp only [hzero, hfut]
    cases seq <;> simp
  have hp : ∃ rcv : List Char, parseEvent (⟨sup, false, seq⟩ : Config) now line mso =
      (⟨zeroGoTime, d, cs.length / 2, name, none⟩,
        if seq then [⟨zeroGoTime, rcv, d, name, mso⟩] else []) := by
    rcases htok with h | h
    · exact ⟨defaultReceived, by rw [parseEvent_two h, hpt]⟩
    · exact ⟨r, by rw [parseEvent_three h, hpt]⟩
  obtain ⟨rcv, hp⟩ := hp
  refine ⟨by rw [hp], by rw [hp], ?_⟩
  unfold processLine
  simp only [hp]

/-- Witness for C9 at the payload `"410000000GAA"`, whose timestamp field
`"0000000G"` is not valid hex. -/
theorem claim9_bad_timestamp_is_not_an_error_witness :
    parseHexInt64? ("410000000GAA".toList.drop 2 |>.take 8) = none ∧
    (parseEvent ⟨false, false, false⟩ ⟨10 ^ 9⟩ "DEV1 410000000GAA".toList "m").1.err = none ∧
    (parseEvent ⟨false, false, false⟩ ⟨10 ^ 9⟩ "DEV1 410000000GAA".toList "m").1.timestamp =
      zeroGoTime := by
  have h := claim9_bad_timestamp_is_not_an_error false false ⟨10 ^ 9⟩ "f" 1 "m"
    ⟨⟨[], [], []⟩, [], []⟩ "DEV1 410000000GAA".toList [] "DEV1".toList
    "410000000GAA".toList "`A`Ad Display" (Or.inl (by decide)) (by decide) (by decide)
    (by decide) (by decide)
  exact ⟨by decide, h.1, h.2.1⟩

end Claim9

section Claim10

/-- C10: an event whose decoded timestamp is strictly in the future is
still sent to the event-log channel when full-sequence logging (or VOD
logging, for a VOD-qualifying event) is on: the channel send happens
after, and regardless of, the future-timestamp check setting the error.
The same line is also recorded in the error log with `wrongDate`. -/
theorem claim10_future_event_still_logged (sup seqv : Bool) (now : GoTime)
    (fileName : String) (lineNo : Nat) (mso : String) (st : FullState)
    (line d cs : List Char) (name : String)
    (htok : splitSpace line = [d, cs])
    (h10 : 10 ≤ cs.length)
    (hl : eventNameLookup (cs.take 2) = some name)
    (hfut : goAfter (convertToTime ((cs.drop 2).take 8)) now = true) :
    (parseEvent ⟨sup, false, true⟩ now line mso =
      (⟨convertToTime ((cs.drop 2).take 8), d, cs.length / 2, name, some ParseErr.wrongDate⟩,
        [⟨convertToTime ((cs.drop 2).take 8), defaultReceived, d, name, mso⟩])) ∧
    (name = "`G`VOD Category" →
      parseEvent ⟨sup, true, seqv⟩ now line mso =
        (⟨convertToTime ((cs.drop 2).take 8), d, cs.length / 2, name, some ParseErr.wrongDate⟩,
          [⟨convertToTime ((cs.drop 2).take 8), defaultReceived, d, name, mso⟩])) ∧
    processLine ⟨sup, false, true⟩ now fileName lineNo mso st line =
      { st with
        vodLog := st.vodLog ++
          [⟨convertToTime ((cs.drop 2).take 8), defaultReceived, d, name, mso⟩],
        errorsLog := st.errorsLog ++ [⟨fileName, lineNo, line, ParseErr.wrongDate⟩] } := by
  have hseq : parseEvent (⟨sup, false, true⟩ : Config) now line mso =
      (⟨convertToTime ((cs.drop 2).take 8), d, cs.length / 2, name, some ParseErr.wrongDate⟩,
        [⟨convertToTime ((cs.drop 2).take 8), defaultReceived, d, name, mso⟩]) := by
    rw [parseEvent_two htok, parseTokens_decoded h10 hl]
    simp only [hfut]
    simp
  refine ⟨hseq, ?_, ?_⟩
  · intro hname
    subst hname
    rw [parseEvent_two htok, parseTokens_decoded h10 hl]
    simp only [hfut]
    simp [checkAndLogForVodActivity]
  · unfold processLine
    simp only [hseq]

/-- Witness for C10: the payload `"4B00000001"` decodes to one second after
the GPS epoch, which is in the future of a `now` equal to the GPS epoch;
the event is logged in sequence mode and also recorded as a `wrongDate`
error. -/
theorem claim10_future_event_still_logged_witness :
    goAfter (convertToTime ("4B00000001".toList.drop 2 |>.take 8)) ⟨315964800⟩ = true ∧
    processLine ⟨false, false, true⟩ ⟨315964800⟩ "f" 1 "m" ⟨⟨[], [], []⟩, [], []⟩
        "DEV1 4B00000001".toList =
      { sim := ⟨[], [], []⟩,
        errorsLog := [⟨"f", 1, "DEV1 4B00000001".toList, ParseErr.wrongDate⟩],
        vodLog := [⟨⟨315964801⟩, defaultReceived, "DEV1".toList, "`K`Key Press", "m"⟩] } := by
  have h := claim10_future_event_still_logged false false ⟨315964800⟩ "f" 1 "m"
    ⟨⟨[], [], []⟩, [], []⟩ "DEV1 4B00000001".toList "DEV1".toList "4B00000001".toList
    "`K`Key Press" (by decide) (by decide) (by decide) (by decide)
  refine ⟨by decide, ?_⟩
  rw [h.2.2]
  decide

end Claim10

section Claim1

lemma mainRun_cons {s : Bool} {st : SimState} {ev : EventOk} {evs : List EventOk} :
    mainRun s st (ev :: evs) = mainRun s (bufferObserve s st ev) evs := rfl

lemma bufferObserve_single {d : List Char} {b0 : Nat} {inits : List Nat}
    {pkgs0 : List Package} {ev : EventOk} (hd : ev.deviceId = d) :
    bufferObserve false ⟨[(d, b0)], inits, pkgs0⟩ ev =
      if b0 + ev.eventSize > BuffWaterMarkSize then
        ⟨[(d, ev.eventSize)], inits, pkgs0 ++ [⟨ev.timestamp, ev.deviceId, ev.eventCode⟩]⟩
      else ⟨[(d, b0 + ev.eventSize)], inits, pkgs0⟩ := by
  unfold bufferObserve
  simp [lookupDev, mapSet, hd]

/-- C1: the buffer simulation refines the spec's per-device recurrence.
For a device with a known initial accumulated value `b0` and a sequence of
observed (non-suppressed) events, the main loop emits a package at an
event exactly when the accumulated value plus the event's size exceeds the
750-byte watermark — resetting the accumulator to the triggering event's
own size — and otherwise only adds the size; the emitted-package sequence
and final accumulated value are the deterministic functions `specEmitted`
and `specAcc` of `b0` and the sizes. -/
theorem claim1_buffer_watermark_refinement (d : List Char) (b0 : Nat)
    (inits : List Nat) (pkgs0 : List Package) (evs : List EventOk)
    (hdev : ∀ ev ∈ evs, ev.deviceId = d) :
    mainRun false ⟨[(d, b0)], inits, pkgs0⟩ evs =
      ⟨[(d, specAcc b0 (evs.map EventOk.eventSize))], inits,
        pkgs0 ++ specEmitted b0 evs⟩ := by
  induction evs generalizing b0 pkgs0 with
  | nil => simp [mainRun, specAcc, specEmitted]
  | cons ev rest ih =>
    have hd : ev.deviceId = d := hdev ev (List.mem_cons_self _ _)
    have hrest : ∀ e ∈ rest, e.deviceId = d := fun e he => hdev e (List.mem_cons_of_mem _ he)
    rw [mainRun_cons, bufferObserve_single hd]
    by_cases hgt : b0 + ev.eventSize > BuffWaterMarkSize
    · have hgt750 : b0 + ev.eventSize > 750 := hgt
      rw [if_pos hgt, ih _ _ hrest]
      simp only [List.map_cons, specAcc, specEmitted, hgt750, if_pos, List.append_assoc,
        List.singleton_append]
    · have hng : ¬ b0 + ev.eventSize > 750 := hgt
      rw [if_neg hgt, ih _ _ hrest]
      simp only [List.map_cons, specAcc, specEmitted, hng, if_neg, ite_false, if_false]

/-- Witness for C1: device `"D"` seeded with 700 accumulated bytes and two
events of sizes 100 and 30 — the first event crosses the watermark and is
emitted, the second only accumulates. -/
theorem claim1_buffer_watermark_refinement_witness :
    (∀ ev ∈ [(⟨⟨1⟩, ['D'], 100, "`K`Key Press"⟩ : EventOk),
        ⟨⟨2⟩, ['D'], 30, "`O`Option"⟩], ev.deviceId = ['D']) ∧
    mainRun false ⟨[(['D'], 700)], [], []⟩
        [⟨⟨1⟩, ['D'], 100, "`K`Key Press"⟩, ⟨⟨2⟩, ['D'], 30, "`O`Option"⟩] =
      ⟨[(['D'], 130)], [], [⟨⟨1⟩, ['D'], "`K`Key Press"⟩]⟩ := by
  refine ⟨by decide, ?_⟩
  have h := claim1_buffer_watermark_refinement ['D'] 700 [] []
    [⟨⟨1⟩, ['D'], 100, "`K`Key Press"⟩, ⟨⟨2⟩, ['D'], 30, "`O`Option"⟩] (by decide)
  rw [h]
  decide

end Claim1

section Claim5

/-- C5 fails as stated: processing a suppressed diagnostic event is not
always a no-op on buffer state, because the lazy randomized initialization
of the device's `bufferSize` entry happens before the suppression check.
Concretely: with suppression on, a diagnostic `Button Config` event for a
device with no buffer entry creates the entry (consuming a random value),
so the state changes. -/
theorem claim5_counterexample :
    ¬ ∀ (ev : EventOk) (st : SimState), isDiagnosticEvent ev.eventCode = true →
        bufferObserve true st ev = st := by
  intro h
  have hc := h ⟨⟨0⟩, ['D'], 3, "`B`Button Config"⟩ ⟨[], [5], []⟩ (by decide)
  exact absurd hc (by decide)

/-- C5 amended: with suppression on, a diagnostic event never emits a
package, and if the device already has an `accumulatedBytes` entry the
whole state is unchanged; for a first-seen device the lazy random
initialization still creates the entry (with the next random value) before
the event is dropped. -/
theorem claim5_suppressed_diagnostic_frame (ev : EventOk) (st : SimState)
    (hdiag : isDiagnosticEvent ev.eventCode = true) :
    (bufferObserve true st ev).packages = st.packages ∧
    (∀ b : Nat, lookupDev st.bufferSize ev.deviceId = some b →
      bufferObserve true st ev = st) ∧
    (lookupDev st.bufferSize ev.deviceId = none →
      bufferObserve true st ev =
        ⟨mapSet st.bufferSize ev.deviceId (st.inits.headD 0), st.inits.tail,
          st.packages⟩) := by
  refine ⟨?_, ?_, ?_⟩
  · unfold bufferObserve
    cases hl : lookupDev st.bufferSize ev.deviceId <;> simp [hl, hdiag]
  · intro b hl
    unfold bufferObserve
    simp [hl, hdiag]
  · intro hl
    unfold bufferObserve
    simp [hl, hdiag]

/-- Witness for C5 (amended): a diagnostic event for a device whose buffer
entry is present leaves the state unchanged. -/
theorem claim5_suppressed_diagnostic_frame_witness :
    isDiagnosticEvent "`B`Button Config" = true ∧
    bufferObserve true ⟨[(['D'], 10)], [7], []⟩ ⟨⟨0⟩, ['D'], 3, "`B`Button Config"⟩ =
      ⟨[(['D'], 10)], [7], []⟩ :=
  ⟨by decide,
    (claim5_suppressed_diagnostic_frame ⟨⟨0⟩, ['D'], 3, "`B`Button Config"⟩
      ⟨[(['D'], 10)], [7], []⟩ (by decide)).2.1 10 (by decide)⟩

end Claim5

section Claim6

lemma dayOf_mono {a b : TimepointType} (h : tpLE a b) :
    dayOf a.timestamp ≤ dayOf b.timestamp := by
  unfold tpLE at h
  unfold dayOf
  omega

lemma rotateAux_all_same (dd : Int) :
    ∀ (rest cur : List TimepointType),
      (∀ tp ∈ rest, dayOf tp.timestamp = dd) →
      rotateAux dd cur rest = [(dd, cur.reverse ++ rest)] := by
  intro rest
  induction rest with
  | nil =>
    intro cur _
    simp [rotateAux]
  | cons tp rest' ih =>
    intro cur hall
    have hday : dayOf tp.timestamp = dd := hall tp (List.mem_cons_self _ _)
    have hval : validateFileDate dd tp.timestamp = true := by
      simp [validateFileDate, hday]
    unfold rotateAux
    rw [hval, if_pos rfl, ih (tp :: cur) (fun b hb => hall b (List.mem_cons_of_mem _ hb))]
    simp

lemma rotateAux_two_phase (d1 d2 : Int) (hne : d2 ≠ d1) (b0 : TimepointType)
    (B' : List TimepointType) (hb0 : dayOf b0.timestamp = d2)
    (hB : ∀ b ∈ B', dayOf b.timestamp = d2) :
    ∀ (A cur : List TimepointType),
      (∀ a ∈ A, dayOf a.timestamp = d1) →
      rotateAux d1 cur (A ++ b0 :: B') = [(d1, cur.reverse ++ A), (d2, b0 :: B')] := by
  intro A
  induction A with
  | nil =>
    intro cur _
    have hval : validateFileDate d1 b0.timestamp = false := by
      simp [validateFileDate, hb0, hne]
    simp only [List.nil_append, rotateAux, hval, Bool.false_eq_true, if_false]
    rw [hb0, rotateAux_all_same d2 B' [b0] hB]
    simp
  | cons a A' ih =>
    intro cur hall
    have hday : dayOf a.timestamp = d1 := hall a (List.mem_cons_self _ _)
    have hval : validateFileDate d1 a.timestamp = true := by
      simp [validateFileDate, hday]
    have : (a :: A') ++ b0 :: B' = a :: (A' ++ b0 :: B') := rfl
    rw [this]
    unfold rotateAux
    rw [hval, if_pos rfl, ih (a :: cur) (fun x hx => hall x (List.mem_cons_of_mem _ hx))]
    simp

lemma sorted_two_days_split (d1 d2 : Int) (h12 : d1 < d2) :
    ∀ s : List TimepointType, List.Pairwise tpLE s →
      (∀ tp ∈ s, dayOf tp.timestamp = d1 ∨ dayOf tp.timestamp = d2) →
      (∃ tp ∈ s, dayOf tp.timestamp = d1) →
      (∃ tp ∈ s, dayOf tp.timestamp = d2) →
      ∃ A b0 B', s = A ++ b0 :: B' ∧ A ≠ [] ∧
        (∀ a ∈ A, dayOf a.timestamp = d1) ∧ dayOf b0.timestamp = d2 ∧
        (∀ b ∈ B', dayOf b.timestamp = d2) := by
  intro s
  induction s with
  | nil =>
    intro _ _ h1 _
    obtain ⟨tp, htp, _⟩ := h1
    exact absurd htp (List.not_mem_nil tp)
  | cons tp rest ih =>
    intro hpair hall h1 h2
    rw [List.pairwise_cons] at hpair
    obtain ⟨hhead, htail⟩ := hpair
    rcases hall tp (List.mem_cons_self _ _) with hd1 | hd2
    · by_cases hrest2 : ∀ b ∈ rest, dayOf b.timestamp = d2
      · obtain ⟨w, hw, hwd⟩ := h2
        have hwrest : w ∈ rest := by
          rcases List.mem_cons.mp hw with rfl | h
          · omega
          · exact h
        rcases rest with _ | ⟨b0, B'⟩
        · exact absurd hwrest (List.not_mem_nil w)
        · refine ⟨[tp], b0, B', rfl, by simp, ?_, ?_, ?_⟩
          · intro a ha
            rw [List.mem_singleton.mp ha]
            exact hd1
          · exact hrest2 b0 (List.mem_cons_self _ _)
          · exact fun b hb => hrest2 b (List.mem_cons_of_mem _ hb)
      · push_neg at hrest2
        obtain ⟨u, hu, hud⟩ := hrest2
        have hud1 : dayOf u.timestamp = d1 := by
          rcases hall u (List.mem_cons_of_mem _ hu) with h | h
          · exact h
          · exact absurd h hud
        obtain ⟨w, hw, hwd⟩ := h2
        have hwrest : w ∈ rest := by
          rcases List.mem_cons.mp hw with rfl | h
          · omega
          · exact h
        obtain ⟨A, b0, B', hsplit, _, hA, hb0, hB⟩ :=
          ih htail (fun x hx => hall x (List.mem_cons_of_mem _ hx))
            ⟨u, hu, hud1⟩ ⟨w, hwrest, hwd⟩
        refine ⟨tp :: A, b0, B', by rw [hsplit]; rfl, by simp, ?_, hb0, hB⟩
        intro a ha
        rcases List.mem_cons.mp ha with rfl | h
        · exact hd1
        · exact hA a h
    · exfalso
      obtain ⟨w, hw, hwd⟩ := h1
      rcases List.mem_cons.mp hw with rfl | hwrest
      · omega
      · have := dayOf_mono (hhead w hwrest)
        omega

/-- C6: given buckets spanning exactly two calendar dates, the per-second
aggregation output is split into exactly two date-suffixed files, each
containing only buckets whose timestamp falls on that file's date, written
in ascending timestamp order — because the bucket list is globally sorted
before the day-rotation loop runs. -/
theorem claim6_two_date_rotation (l : List TimepointType) (d1 d2 : Int)
    (h12 : d1 < d2)
    (hdates : ∀ tp ∈ l, dayOf tp.timestamp = d1 ∨ dayOf tp.timestamp = d2)
    (h1 : ∃ tp ∈ l, dayOf tp.timestamp = d1)
    (h2 : ∃ tp ∈ l, dayOf tp.timestamp = d2) :
    ∃ F1 F2 : List TimepointType,
      rotateFiles (sortTP l) = [(d1, F1), (d2, F2)] ∧
      (∀ tp ∈ F1, dayOf tp.timestamp = d1) ∧
      (∀ tp ∈ F2, dayOf tp.timestamp = d2) ∧
      List.Pairwise tpLE F1 ∧ List.Pairwise tpLE F2 ∧
      (F1 ++ F2).Perm l := by
  have hperm : (sortTP l).Perm l := List.perm_insertionSort tpLE l
  have hs : List.Pairwise tpLE (sortTP l) := List.sorted_insertionSort tpLE l
  have hall : ∀ tp ∈ sortTP l, dayOf tp.timestamp = d1 ∨ dayOf tp.timestamp = d2 :=
    fun tp htp => hdates tp (hperm.mem_iff.mp htp)
  have h1s : ∃ tp ∈ sortTP l, dayOf tp.timestamp = d1 := by
    obtain ⟨tp, htp, hd⟩ := h1
    exact ⟨tp, hperm.mem_iff.mpr htp, hd⟩
  have h2s : ∃ tp ∈ sortTP l, dayOf tp.timestamp = d2 := by
    obtain ⟨tp, htp, hd⟩ := h2
    exact ⟨tp, hperm.mem_iff.mpr htp, hd⟩
  obtain ⟨A, b0, B', hsplit, hAne, hA, hb0, hB⟩ :=
    sorted_two_days_split d1 d2 h12 (sortTP l) hs hall h1s h2s
  rcases A with _ | ⟨a0, A'⟩
  · exact absurd rfl hAne
  refine ⟨a0 :: A', b0 :: B', ?_, hA, ?_, ?_, ?_, ?_⟩
  · rw [hsplit]
    have hstep : ((a0 :: A') ++ b0 :: B') = a0 :: (A' ++ b0 :: B') := rfl
    rw [hstep]
    simp only [rotateFiles]
    rw [hA a0 (List.mem_cons_self _ _),
      rotateAux_two_phase d1 d2 (by omega) b0 B' hb0 hB A' [a0]
        (fun x hx => hA x (List.mem_cons_of_mem _ hx))]
    simp
  · intro tp htp
    rcases List.mem_cons.mp htp with rfl | h
    · exact hb0
    · exact hB tp h
  · rw [hsplit, List.pairwise_append] at hs
    exact hs.1
  · rw [hsplit, List.pairwise_append] at hs
    exact hs.2.1
  · rw [← hsplit]
    exact hperm

/-- Witness for C6: three buckets with timestamps on day 0 and day 1 of the
Unix epoch produce exactly the two files for those dates. -/
theorem claim6_two_date_rotation_witness :
    (0 : Int) < 1 ∧
    (∀ tp ∈ [(⟨⟨90000⟩, 2⟩ : TimepointType), ⟨⟨10⟩, 1⟩, ⟨⟨86401⟩, 3⟩],
      dayOf tp.timestamp = 0 ∨ dayOf tp.timestamp = 1) ∧
    (∃ F1 F2 : List TimepointType,
      rotateFiles (sortTP [⟨⟨90000⟩, 2⟩, ⟨⟨10⟩, 1⟩, ⟨⟨86401⟩, 3⟩]) = [(0, F1), (1, F2)] ∧
      (∀ tp ∈ F1, dayOf tp.timestamp = 0) ∧
      (∀ tp ∈ F2, dayOf tp.timestamp = 1) ∧
      List.Pairwise tpLE F1 ∧ List.Pairwise tpLE F2 ∧
      (F1 ++ F2).Perm [⟨⟨90000⟩, 2⟩, ⟨⟨10⟩, 1⟩, ⟨⟨86401⟩, 3⟩]) :=
  ⟨by decide, by decide,
    claim6_two_date_rotation [⟨⟨90000⟩, 2⟩, ⟨⟨10⟩, 1⟩, ⟨⟨86401⟩, 3⟩] 0 1 (by decide)
      (by decide) ⟨⟨⟨10⟩, 1⟩, by decide⟩ ⟨⟨⟨86401⟩, 3⟩, by decide⟩⟩

end Claim6

end CSBuffer
